import Mathlib

/-!
# Verification of the GPT-2 re-implementation (train_gpt2.py / model.py)

Shallow embedding of the transformer forward pass and the checkpoint-import
routine of `src/train_gpt2.py`, over ℚ-valued tensors represented as curried
functions on `Fin`.  The transcendental primitives supplied by the numerics
library (exp inside softmax and cross-entropy, log, 1/sqrt scalings, the
tanh-approximate GELU) are irrational-valued, so they enter the embedding as
function parameters; every theorem below holds for every instantiation
satisfying the stated sign conditions, hence in particular for the real
exp / log / sqrt / gelu.
-/

set_option autoImplicit false

namespace TrainGPT2

/-- Configuration dataclass `GPTConfig` of train_gpt2.py (defaults from the
source: block_size 1024, vocab_size 58257, n_layer 12, n_head 12, n_embd 768). -/
structure GPTConfig where
  block_size : ℕ := 1024
  vocab_size : ℕ := 58257
  n_layer : ℕ := 12
  n_head : ℕ := 12
  n_embd : ℕ := 768
deriving DecidableEq, Repr

/-- Source: `nn.Linear(inF, outF)`: weight of shape (outF, inF) and bias of shape (outF). -/
structure Linear (inF outF : ℕ) where
  weight : Fin outF → Fin inF → ℚ
  bias : Fin outF → ℚ

/-- Source: `nn.Linear.forward`: `y = x @ W.T + b`, i.e. `y o = (∑ i, x i * W o i) + b o`. -/
def Linear.forward {inF outF : ℕ} (l : Linear inF outF) (x : Fin inF → ℚ)
    (o : Fin outF) : ℚ :=
  (∑ i, x i * l.weight o i) + l.bias o

/-- Source: `nn.Linear(inF, outF, bias=False)` as used by `lm_head`: application of the
weight matrix alone. -/
def linearNoBias {inF outF : ℕ} (weight : Fin outF → Fin inF → ℚ)
    (x : Fin inF → ℚ) (o : Fin outF) : ℚ :=
  ∑ i, x i * weight o i

/-- Source: `nn.Embedding(num, dim)`: a learned lookup table, one row per index. -/
structure Embedding (num dim : ℕ) where
  weight : Fin num → Fin dim → ℚ

/-- Source: `nn.Embedding.forward`: index lookup returns the table row. -/
def Embedding.forward {num dim : ℕ} (e : Embedding num dim) (i : Fin num) :
    Fin dim → ℚ :=
  e.weight i

/-- Source: `nn.LayerNorm(n)`: learnable elementwise affine parameters. -/
structure LayerNorm (n : ℕ) where
  weight : Fin n → ℚ
  bias : Fin n → ℚ

/-- Mean of a vector, as computed by LayerNorm. -/
def vecMean {n : ℕ} (x : Fin n → ℚ) : ℚ := (∑ i, x i) / (n : ℚ)

/-- Biased variance of a vector, as computed by LayerNorm. -/
def vecVar {n : ℕ} (x : Fin n → ℚ) : ℚ :=
  (∑ i, (x i - vecMean x) ^ 2) / (n : ℚ)

/-- Source: `nn.LayerNorm.forward` with the default eps = 1e-5:
`y i = γ i * (x i - mean) * rsqrt (var + eps) + β i`, where `rsqrt` is the
reciprocal-square-root primitive of the library (a parameter here). -/
def LayerNorm.forward {n : ℕ} (rsqrt : ℚ → ℚ) (ln : LayerNorm n)
    (x : Fin n → ℚ) (i : Fin n) : ℚ :=
  ln.weight i * ((x i - vecMean x) * rsqrt (vecVar x + 1 / 100000)) + ln.bias i

/-- The class `MLP` of train_gpt2.py: `c_fc : n_embd → 4*n_embd`,
tanh-approximate GELU, `c_proj : 4*n_embd → n_embd`. -/
structure MLP (cfg : GPTConfig) where
  c_fc : Linear cfg.n_embd (4 * cfg.n_embd)
  c_proj : Linear (4 * cfg.n_embd) cfg.n_embd

/-- Source: `MLP.forward`: `c_proj (gelu (c_fc x))`, with `gelu` the library's
tanh-approximate GELU, a parameter of the embedding. -/
def MLP.forward {cfg : GPTConfig} (gelu : ℚ → ℚ) (m : MLP cfg)
    (x : Fin cfg.n_embd → ℚ) : Fin cfg.n_embd → ℚ :=
  m.c_proj.forward fun i => gelu (m.c_fc.forward x i)

/-- The class `CausalSelfAttention`: fused qkv projection `c_attn`, output
projection `c_proj`, and the divisibility fact `n_embd % n_head == 0` that its
constructor asserts (construction succeeds only when it holds, see `mk?`). -/
structure CausalSelfAttention (cfg : GPTConfig) where
  c_attn : Linear cfg.n_embd (3 * cfg.n_embd)
  c_proj : Linear cfg.n_embd cfg.n_embd
  hdiv : cfg.n_embd % cfg.n_head = 0

/-- Source: `CausalSelfAttention.__init__`: `assert config.n_embd % config.n_head == 0`,
then the two Linear submodules; the assertion is modelled as the error branch.
The submodule weights (random draws in torch) are arguments. -/
def CausalSelfAttention.mk? (cfg : GPTConfig)
    (c_attn : Linear cfg.n_embd (3 * cfg.n_embd))
    (c_proj : Linear cfg.n_embd cfg.n_embd) :
    Except String (CausalSelfAttention cfg) :=
  if h : cfg.n_embd % cfg.n_head = 0 then
    .ok ⟨c_attn, c_proj, h⟩
  else
    .error "AssertionError"

/-- The registered buffer
`bias = torch.tril(torch.ones(block_size, block_size))` (the two leading
singleton dims of the `.view(1,1,bs,bs)` are dropped): entry (i, j) is 1 when
j ≤ i and 0 above the diagonal. -/
def attnBias (cfg : GPTConfig) (i j : Fin cfg.block_size) : ℚ :=
  if (j : ℕ) ≤ (i : ℕ) then 1 else 0

/-- Head size `hs = C // n_head` used by the `.view(B, T, n_head, C//n_head)`
reshapes in `CausalSelfAttention.forward`. -/
def headSize (cfg : GPTConfig) : ℕ := cfg.n_embd / cfg.n_head

/-- The flat channel index addressed by `(head, s)` after
`.view(B, T, n_head, hs)`: row-major, channel `head * hs + s`. -/
def headIdx (cfg : GPTConfig) (hdiv : cfg.n_embd % cfg.n_head = 0)
    (h : Fin cfg.n_head) (s : Fin (headSize cfg)) : Fin cfg.n_embd := by
  refine ⟨(h : ℕ) * headSize cfg + (s : ℕ), ?_⟩
  have hmul : cfg.n_head * headSize cfg = cfg.n_embd :=
    Nat.mul_div_cancel' (Nat.dvd_of_mod_eq_zero hdiv)
  calc (h : ℕ) * headSize cfg + (s : ℕ)
      < ((h : ℕ) + 1) * headSize cfg := by
        rw [Nat.succ_mul]; exact Nat.add_lt_add_left s.isLt _
    _ ≤ cfg.n_head * headSize cfg :=
        Nat.mul_le_mul_right _ (Nat.succ_le_of_lt h.isLt)
    _ = cfg.n_embd := hmul

namespace CausalSelfAttention

variable {cfg : GPTConfig} {B T : ℕ}

/-- Source: `qkv = self.c_attn(x)`, applied at each (batch, time) position. -/
def qkv (a : CausalSelfAttention cfg) (x : Fin B → Fin T → Fin cfg.n_embd → ℚ)
    (b : Fin B) (t : Fin T) : Fin (3 * cfg.n_embd) → ℚ :=
  a.c_attn.forward (x b t)

/-- Source: `q, k, v = qkv.split(self.n_embd, dim=2)` followed by
`.view(B, T, n_head, hs).transpose(1, 2)`: `part` selects which third of the
fused projection is read (0 for q, 1 for k, 2 for v), and the result is
indexed (batch, head, time, within-head channel). -/
def qkvPart (a : CausalSelfAttention cfg) (part : ℕ) (hpart : part < 3)
    (x : Fin B → Fin T → Fin cfg.n_embd → ℚ)
    (b : Fin B) (h : Fin cfg.n_head) (t : Fin T) (s : Fin (headSize cfg)) : ℚ :=
  a.qkv x b t ⟨part * cfg.n_embd + (headIdx cfg a.hdiv h s : ℕ), by
    have hc : (headIdx cfg a.hdiv h s : ℕ) < cfg.n_embd := (headIdx cfg a.hdiv h s).isLt
    have : part * cfg.n_embd + (headIdx cfg a.hdiv h s : ℕ) <
        part * cfg.n_embd + cfg.n_embd := Nat.add_lt_add_left hc _
    have h3 : part * cfg.n_embd + cfg.n_embd ≤ 3 * cfg.n_embd := by
      have : (part + 1) * cfg.n_embd ≤ 3 * cfg.n_embd :=
        Nat.mul_le_mul_right _ (Nat.succ_le_of_lt hpart)
      simpa [Nat.succ_mul] using this
    omega⟩

/-- The query tensor `q` of shape (B, n_head, T, hs). -/
def q (a : CausalSelfAttention cfg) (x : Fin B → Fin T → Fin cfg.n_embd → ℚ) :
    Fin B → Fin cfg.n_head → Fin T → Fin (headSize cfg) → ℚ :=
  a.qkvPart 0 (by omega) x

/-- The key tensor `k` of shape (B, n_head, T, hs). -/
def k (a : CausalSelfAttention cfg) (x : Fin B → Fin T → Fin cfg.n_embd → ℚ) :
    Fin B → Fin cfg.n_head → Fin T → Fin (headSize cfg) → ℚ :=
  a.qkvPart 1 (by omega) x

/-- The value tensor `v` of shape (B, n_head, T, hs). -/
def v (a : CausalSelfAttention cfg) (x : Fin B → Fin T → Fin cfg.n_embd → ℚ) :
    Fin B → Fin cfg.n_head → Fin T → Fin (headSize cfg) → ℚ :=
  a.qkvPart 2 (by omega) x

/-- Raw attention scores
`att = (q @ k.transpose(-2, -1)) * (1.0 / math.sqrt(k.size(-1)))`.
`sqrtInv n` models the scalar `1.0 / math.sqrt(n)`. -/
def att (sqrtInv : ℕ → ℚ) (a : CausalSelfAttention cfg)
    (x : Fin B → Fin T → Fin cfg.n_embd → ℚ)
    (b : Fin B) (h : Fin cfg.n_head) (i j : Fin T) : ℚ :=
  (∑ s, a.q x b h i s * a.k x b h j s) * sqrtInv (headSize cfg)

end CausalSelfAttention

/-- An extended attention score: either the float `-inf` written by
`masked_fill` or a finite value. -/
inductive Score where
  | ninf : Score
  | val : ℚ → Score
deriving DecidableEq, Repr

/-- Source: `exp` extended to masked scores: IEEE `exp(-inf) = 0`; on finite scores it
is the library exp, the parameter `E`. -/
def expScore (E : ℚ → ℚ) : Score → ℚ
  | .ninf => 0
  | .val x => E x

namespace CausalSelfAttention

variable {cfg : GPTConfig} {B T : ℕ}

/-- Source: `att = att.masked_fill(self.bias[:, :, :T, :T] == 0, float('-inf'))`:
wherever the sliced triangular buffer is 0 the score becomes `-inf`,
elsewhere it is kept.  Slicing `[:T, :T]` of the (block_size, block_size)
buffer requires `T ≤ block_size` (`hT`). -/
def attMasked (sqrtInv : ℕ → ℚ) (a : CausalSelfAttention cfg)
    (hT : T ≤ cfg.block_size) (x : Fin B → Fin T → Fin cfg.n_embd → ℚ)
    (b : Fin B) (h : Fin cfg.n_head) (i j : Fin T) : Score :=
  if attnBias cfg (Fin.castLE hT i) (Fin.castLE hT j) = 0 then
    .ninf
  else
    .val (att sqrtInv a x b h i j)

/-- Source: `att = F.softmax(att, dim=-1)`: the attention weights, row-normalized over
the key index. -/
def attWeights (E : ℚ → ℚ) (sqrtInv : ℕ → ℚ) (a : CausalSelfAttention cfg)
    (hT : T ≤ cfg.block_size) (x : Fin B → Fin T → Fin cfg.n_embd → ℚ)
    (b : Fin B) (h : Fin cfg.n_head) (i j : Fin T) : ℚ :=
  expScore E (attMasked sqrtInv a hT x b h i j) /
    ∑ j', expScore E (attMasked sqrtInv a hT x b h i j')

/-- Source: `y = att @ v`, of shape (B, n_head, T, hs). -/
def yHeads (E : ℚ → ℚ) (sqrtInv : ℕ → ℚ) (a : CausalSelfAttention cfg)
    (hT : T ≤ cfg.block_size) (x : Fin B → Fin T → Fin cfg.n_embd → ℚ)
    (b : Fin B) (h : Fin cfg.n_head) (t : Fin T) (s : Fin (headSize cfg)) : ℚ :=
  ∑ j, attWeights E sqrtInv a hT x b h t j * a.v x b h j s

/-- Source: `y.transpose(1, 2).contiguous().view(B, T, C)`: heads re-assembled side by
side, channel c read from head `c / hs`, within-head position `c % hs`. -/
def yMerged (E : ℚ → ℚ) (sqrtInv : ℕ → ℚ) (a : CausalSelfAttention cfg)
    (hT : T ≤ cfg.block_size) (x : Fin B → Fin T → Fin cfg.n_embd → ℚ)
    (b : Fin B) (t : Fin T) (c : Fin cfg.n_embd) : ℚ :=
  have hmul : cfg.n_head * headSize cfg = cfg.n_embd :=
    Nat.mul_div_cancel' (Nat.dvd_of_mod_eq_zero a.hdiv)
  have hs_pos : 0 < headSize cfg := by
    rcases Nat.eq_zero_or_pos (headSize cfg) with h0 | h0
    · rw [h0, Nat.mul_zero] at hmul
      exact absurd c.isLt (by omega)
    · exact h0
  yHeads E sqrtInv a hT x b
    ⟨(c : ℕ) / headSize cfg, by
      have hlt : (c : ℕ) < cfg.n_head * headSize cfg := by rw [hmul]; exact c.isLt
      rw [Nat.mul_comm] at hlt
      exact Nat.div_lt_of_lt_mul hlt⟩
    t
    ⟨(c : ℕ) % headSize cfg, Nat.mod_lt _ hs_pos⟩

/-- Source: `CausalSelfAttention.forward`: the full pipeline ending in the output
projection `y = self.c_proj(y)`. -/
def forward (E : ℚ → ℚ) (sqrtInv : ℕ → ℚ) (a : CausalSelfAttention cfg)
    (hT : T ≤ cfg.block_size) (x : Fin B → Fin T → Fin cfg.n_embd → ℚ)
    (b : Fin B) (t : Fin T) : Fin cfg.n_embd → ℚ :=
  a.c_proj.forward (yMerged E sqrtInv a hT x b t)

end CausalSelfAttention

/-- The class `Block`: pre-norm transformer block with attention and MLP. -/
structure Block (cfg : GPTConfig) where
  ln_1 : LayerNorm cfg.n_embd
  attn : CausalSelfAttention cfg
  ln_2 : LayerNorm cfg.n_embd
  mlp : MLP cfg

/-- Source: `Block.forward`:
`x = x + self.attn(self.ln_1(x)); x = x + self.mlp(self.ln_2(x)); return x`. -/
def Block.forward {cfg : GPTConfig} {B T : ℕ} (E : ℚ → ℚ) (sqrtInv : ℕ → ℚ)
    (rsqrt : ℚ → ℚ) (gelu : ℚ → ℚ) (blk : Block cfg) (hT : T ≤ cfg.block_size)
    (x : Fin B → Fin T → Fin cfg.n_embd → ℚ) : Fin B → Fin T → Fin cfg.n_embd → ℚ :=
  let x1 : Fin B → Fin T → Fin cfg.n_embd → ℚ := fun b t c =>
    x b t c + CausalSelfAttention.forward E sqrtInv blk.attn hT
      (fun b' t' => LayerNorm.forward rsqrt blk.ln_1 (x b' t')) b t c
  fun b t c =>
    x1 b t c + MLP.forward gelu blk.mlp (LayerNorm.forward rsqrt blk.ln_2 (x1 b t)) c

/-- The raw weights `Block.__init__` hands to its submodules (the torch random
initializations), used by `Block.mk?`. -/
structure BlockInit (cfg : GPTConfig) where
  ln_1 : LayerNorm cfg.n_embd
  c_attn : Linear cfg.n_embd (3 * cfg.n_embd)
  c_proj : Linear cfg.n_embd cfg.n_embd
  ln_2 : LayerNorm cfg.n_embd
  mlp : MLP cfg

/-- Source: `Block.__init__`: constructs `CausalSelfAttention(config)` (whose assertion
may fire) together with the two LayerNorms and the MLP. -/
def Block.mk? (cfg : GPTConfig) (p : BlockInit cfg) : Except String (Block cfg) := do
  let attn ← CausalSelfAttention.mk? cfg p.c_attn p.c_proj
  return { ln_1 := p.ln_1, attn := attn, ln_2 := p.ln_2, mlp := p.mlp }

/-- The class `GPT`: the `transformer` ModuleDict (wte, wpe, h, ln_f) together
with the bias-free `lm_head`. -/
structure GPT (cfg : GPTConfig) where
  wte : Embedding cfg.vocab_size cfg.n_embd
  wpe : Embedding cfg.block_size cfg.n_embd
  h : List (Block cfg)
  ln_f : LayerNorm cfg.n_embd
  lm_head : Fin cfg.vocab_size → Fin cfg.n_embd → ℚ

/-- Source: `GPT.__init__`: builds the `n_layer` blocks in order (each block
construction can raise the attention assertion) and assembles the model. -/
def GPT.mk? (cfg : GPTConfig) (wte : Embedding cfg.vocab_size cfg.n_embd)
    (wpe : Embedding cfg.block_size cfg.n_embd) (ps : List (BlockInit cfg))
    (ln_f : LayerNorm cfg.n_embd) (lm_head : Fin cfg.vocab_size → Fin cfg.n_embd → ℚ) :
    Except String (GPT cfg) := do
  let blocks ← ps.mapM (Block.mk? cfg)
  return { wte := wte, wpe := wpe, h := blocks, ln_f := ln_f, lm_head := lm_head }

namespace GPT

variable {cfg : GPTConfig} {B T : ℕ}

/-- Source: `pos = torch.arange(0, T)` viewed as indices into the position table:
position `t` indexes row `t` of `wpe`, legal because `T ≤ block_size`. -/
def posIndex (cfg : GPTConfig) (hT : T ≤ cfg.block_size) (t : Fin T) :
    Fin cfg.block_size :=
  Fin.castLE hT t

/-- Source: `pos_emb = self.transformer.wpe(pos)`, shape (T, n_embd). -/
def posEmb (g : GPT cfg) (hT : T ≤ cfg.block_size) (t : Fin T) :
    Fin cfg.n_embd → ℚ :=
  g.wpe.forward (posIndex cfg hT t)

/-- Source: `tok_emb = self.transformer.wte(idx)`, shape (B, T, n_embd). -/
def tokEmb (g : GPT cfg) (idx : Fin B → Fin T → Fin cfg.vocab_size)
    (b : Fin B) (t : Fin T) : Fin cfg.n_embd → ℚ :=
  g.wte.forward (idx b t)

/-- Source: `x = pos_emb + tok_emb` (broadcast over the batch dimension). -/
def embed (g : GPT cfg) (hT : T ≤ cfg.block_size)
    (idx : Fin B → Fin T → Fin cfg.vocab_size)
    (b : Fin B) (t : Fin T) (c : Fin cfg.n_embd) : ℚ :=
  posEmb g hT t c + tokEmb g idx b t c

/-- Source: `for block in self.transformer.h: x = block(x)`: left fold over the block
list, each block receiving the previous block's output. -/
def applyBlocks (E : ℚ → ℚ) (sqrtInv : ℕ → ℚ) (rsqrt : ℚ → ℚ) (gelu : ℚ → ℚ)
    (hT : T ≤ cfg.block_size) (blocks : List (Block cfg))
    (x : Fin B → Fin T → Fin cfg.n_embd → ℚ) : Fin B → Fin T → Fin cfg.n_embd → ℚ :=
  blocks.foldl (fun acc blk => Block.forward E sqrtInv rsqrt gelu blk hT acc) x

/-- Source: `x = self.transformer.ln_f(x); logits = self.lm_head(x)`: the output of the
whole stack, projected to vocabulary scores, shape (B, T, vocab_size).  No
normalization is applied after `lm_head`. -/
def logits (E : ℚ → ℚ) (sqrtInv : ℕ → ℚ) (rsqrt : ℚ → ℚ) (gelu : ℚ → ℚ)
    (g : GPT cfg) (hT : T ≤ cfg.block_size)
    (idx : Fin B → Fin T → Fin cfg.vocab_size)
    (b : Fin B) (t : Fin T) : Fin cfg.vocab_size → ℚ :=
  linearNoBias g.lm_head
    (LayerNorm.forward rsqrt g.ln_f
      (applyBlocks E sqrtInv rsqrt gelu hT g.h (embed g hT idx) b t))

end GPT

/-- The row index pair of `view(-1, V)` flattening of a (B, T, ·) tensor:
flat row `r` is batch `r / T`, time `r % T` (row-major). -/
def flatPos {B T : ℕ} (r : Fin (B * T)) : Fin B × Fin T := by
  have hr : (r : ℕ) < B * T := r.isLt
  have hT : 0 < T := by
    rcases Nat.eq_zero_or_pos T with h0 | h0
    · subst h0
      omega
    · exact h0
  exact (⟨(r : ℕ) / T, Nat.div_lt_of_lt_mul (Nat.lt_of_lt_of_eq hr (Nat.mul_comm B T))⟩,
    ⟨(r : ℕ) % T, Nat.mod_lt _ hT⟩)

/-- Source: `F.cross_entropy(logits.view(-1, V), targets.view(-1))` with the default
mean reduction: the average over the B*T flattened rows of
`log (∑ v, exp (row v)) - row (target)`. `E` models exp and `lg` models log. -/
def crossEntropy (E : ℚ → ℚ) (lg : ℚ → ℚ) {B T V : ℕ}
    (logits : Fin B → Fin T → Fin V → ℚ) (targets : Fin B → Fin T → Fin V) : ℚ :=
  (∑ r : Fin (B * T),
      (lg (∑ v, E (logits (flatPos r).1 (flatPos r).2 v)) -
        logits (flatPos r).1 (flatPos r).2 (targets (flatPos r).1 (flatPos r).2))) /
    ((B * T : ℕ) : ℚ)

/-- Source: `GPT.forward(idx, targets)`: asserts `T <= block_size` (the error branch),
then runs the embedding / blocks / final norm / lm_head pipeline and, when
targets are given, the cross-entropy of the flattened logits against the
flattened targets; with `targets=None` the returned loss is `None`. -/
def GPT.forward (E : ℚ → ℚ) (lg : ℚ → ℚ) (sqrtInv : ℕ → ℚ) (rsqrt : ℚ → ℚ)
    (gelu : ℚ → ℚ) {cfg : GPTConfig} {B T : ℕ} (g : GPT cfg)
    (idx : Fin B → Fin T → Fin cfg.vocab_size)
    (targets : Option (Fin B → Fin T → Fin cfg.vocab_size)) :
    Except String ((Fin B → Fin T → Fin cfg.vocab_size → ℚ) × Option ℚ) :=
  if hT : T ≤ cfg.block_size then
    let l := GPT.logits E sqrtInv rsqrt gelu g hT idx
    .ok (l, targets.map fun tg => crossEntropy E lg l tg)
  else
    .error ("AssertionError: Cannot forward sequence of lenth " ++ toString T ++
      ", block size")

/-!
## Checkpoint import (`GPT.from_pretrained`)

The routine manipulates torch state dicts: ordered string-keyed collections of
tensors.  A tensor is its shape list together with its entries addressed by a
multi-index; a state dict is an association list. -/

/-- Python's `str.endswith`: a computable suffix test on the character
sequence of the strings. -/
def strEndsWith (s suffix : String) : Bool :=
  suffix.data.isSuffixOf s.data

/-- A state-dict tensor: shape and multi-indexed entries. -/
structure PTensor where
  shape : List ℕ
  data : List ℕ → ℚ

/-- Source: `.t()` as applied to the (2-D) transposed import weights: the shape is
reversed and entry (i, j) is read from (j, i). -/
def PTensor.t (p : PTensor) : PTensor :=
  ⟨p.shape.reverse, fun ix => p.data ix.reverse⟩

/-- A torch state dict, in insertion order. -/
abbrev StateDict := List (String × PTensor)

/-- The `transposed` list of `GPT.from_pretrained`: suffixes of the Conv1D
weights that must be transposed on import. -/
def transposedSuffixes : List String :=
  ["attn.c_attn.weight", "attn.c_proj.weight", "mlp.c_fc.weight", "mlp.c_proj.weight"]

/-- Source: `sd[k].copy_(v)`: overwrite the entry at key `k` in place (keys other than
`k` keep their values; a missing `k` writes nothing). -/
def sdUpdate (sd : StateDict) (k : String) (v : PTensor) : StateDict :=
  sd.map fun p => if p.1 = k then (k, v) else p

/-- Source: `sd_keys = [k for k in sd.keys() if not k.endswith('.attn.bias')]`:
the model's state-dict keys with the mask buffers discarded. -/
def filteredKeys (sd : StateDict) : List String :=
  (sd.map Prod.fst).filter fun k => ! strEndsWith k ".attn.bias"

/-- Source: `sd_keys_hf` after both filters: the checkpoint keys with
`.attn.masked_bias` and `.attn.bias` buffers discarded. -/
def filteredKeysHf (sd_hf : StateDict) : List String :=
  ((sd_hf.map Prod.fst).filter fun k => ! strEndsWith k ".attn.masked_bias").filter
    fun k => ! strEndsWith k ".attn.bias"

/-- One iteration of the copy loop at key `k`: look up both dicts (a missing
model key is a Python `KeyError`), then either the transposed copy under the
reversed-shape assertion or the vanilla copy under the equal-shape assertion. -/
def copyKey (sd_hf : StateDict) (sd : StateDict) (k : String) :
    Except String StateDict :=
  match sd_hf.lookup k, sd.lookup k with
  | some thf, some t =>
    if transposedSuffixes.any (fun w => strEndsWith k w) then
      if thf.shape.reverse = t.shape then .ok (sdUpdate sd k thf.t)
      else .error "AssertionError"
    else
      if thf.shape = t.shape then .ok (sdUpdate sd k thf)
      else .error "AssertionError"
  | _, _ => .error "KeyError"

/-- Source: `for k in sd_keys_hf: ...`: the copy loop over the filtered checkpoint
keys, threading the model state dict. -/
def copyLoop (sd_hf : StateDict) : List String → StateDict → Except String StateDict
  | [], sd => .ok sd
  | k :: ks, sd =>
    match copyKey sd_hf sd k with
    | .ok sd1 => copyLoop sd_hf ks sd1
    | .error e => .error e

/-- The state-dict part of `GPT.from_pretrained`: filter both key lists,
assert they have equal length, then run the copy loop. `sd` is the fresh
model's state dict, `sd_hf` the pretrained checkpoint's. -/
def fromPretrainedCopy (sd : StateDict) (sd_hf : StateDict) :
    Except String StateDict :=
  if (filteredKeysHf sd_hf).length = (filteredKeys sd).length then
    copyLoop sd_hf (filteredKeysHf sd_hf) sd
  else
    .error "AssertionError: mismatched keys"

/-- The `config_args` table of `GPT.from_pretrained` (n_layer, n_head, n_embd
per model type, vocab_size always 50257, block_size 1024), `None` for a model
type outside the asserted set. -/
def fromPretrainedConfig (model_type : String) : Option GPTConfig :=
  if model_type = "gpt2" then some ⟨1024, 50257, 12, 12, 768⟩
  else if model_type = "gpt2-medium" then some ⟨1024, 50257, 24, 16, 1024⟩
  else if model_type = "gpt2-large" then some ⟨1024, 50257, 36, 20, 1280⟩
  else if model_type = "gpt2-xl" then some ⟨1024, 50257, 48, 25, 1600⟩
  else none

/-!
## Lemmas about the state-dict copy loop -/

theorem lookup_sdUpdate_ne (sd : StateDict) (k k' : String) (v : PTensor)
    (hne : k' ≠ k) : (sdUpdate sd k v).lookup k' = sd.lookup k' := by
  induction sd with
  | nil => rfl
  | cons p rest ih =>
    rcases p with ⟨a, b⟩
    by_cases hp : a = k
    · subst hp
      show List.lookup k' ((if a = a then (a, v) else (a, b)) :: sdUpdate rest a v) = _
      rw [if_pos rfl, List.lookup_cons, beq_eq_false_iff_ne.mpr hne,
        List.lookup_cons, beq_eq_false_iff_ne.mpr hne]
      exact ih
    · show List.lookup k' ((if a = k then (k, v) else (a, b)) :: sdUpdate rest k v) = _
      rw [if_neg hp, List.lookup_cons, List.lookup_cons]
      by_cases ha : k' = a
      · subst ha
        simp
      · rw [beq_eq_false_iff_ne.mpr ha]
        exact ih

theorem lookup_sdUpdate_self (sd : StateDict) (k : String) (v t : PTensor)
    (h : sd.lookup k = some t) : (sdUpdate sd k v).lookup k = some v := by
  induction sd with
  | nil => simp at h
  | cons p rest ih =>
    rcases p with ⟨a, b⟩
    by_cases hp : a = k
    · subst hp
      show List.lookup a ((if a = a then (a, v) else (a, b)) :: sdUpdate rest a v) = some v
      rw [if_pos rfl, List.lookup_cons]
      simp
    · have hne : k ≠ a := fun hh => hp hh.symm
      rw [List.lookup_cons, beq_eq_false_iff_ne.mpr hne] at h
      show List.lookup k ((if a = k then (k, v) else (a, b)) :: sdUpdate rest k v) = some v
      rw [if_neg hp, List.lookup_cons, beq_eq_false_iff_ne.mpr hne]
      exact ih h

theorem copyKey_lookup_ne (sd_hf sd sd2 : StateDict) (k k' : String)
    (hok : copyKey sd_hf sd k = .ok sd2) (hne : k' ≠ k) :
    sd2.lookup k' = sd.lookup k' := by
  unfold copyKey at hok
  split at hok
  · split at hok
    · split at hok
      · cases hok
        exact lookup_sdUpdate_ne sd k k' _ hne
      · cases hok
    · split at hok
      · cases hok
        exact lookup_sdUpdate_ne sd k k' _ hne
      · cases hok
  · cases hok

theorem copyLoop_lookup_notmem (sd_hf : StateDict) (ks : List String)
    (sd sd' : StateDict) (k' : String) (hok : copyLoop sd_hf ks sd = .ok sd')
    (hnm : k' ∉ ks) : sd'.lookup k' = sd.lookup k' := by
  induction ks generalizing sd with
  | nil =>
    rw [copyLoop] at hok
    cases hok
    rfl
  | cons k ks ih =>
    rw [copyLoop] at hok
    split at hok
    next sd1 hck =>
      have h1 : sd'.lookup k' = sd1.lookup k' :=
        ih sd1 hok (fun h => hnm (List.mem_cons_of_mem _ h))
      have h2 : sd1.lookup k' = sd.lookup k' :=
        copyKey_lookup_ne sd_hf sd sd1 k k' hck
          (fun h => hnm (h ▸ List.mem_cons_self _ _))
      rw [h1, h2]
    next e hck => cases hok

theorem mem_filteredKeysHf (sd_hf : StateDict) (k : String)
    (hk : k ∈ filteredKeysHf sd_hf) :
    strEndsWith k ".attn.bias" = false ∧ strEndsWith k ".attn.masked_bias" = false := by
  simp only [filteredKeysHf, List.mem_filter, Bool.not_eq_true'] at hk
  exact ⟨hk.2, hk.1.2⟩

theorem copyLoop_lookup_mem (sd_hf : StateDict) (ks : List String)
    (sd sd' : StateDict) (k : String) (hnd : ks.Nodup)
    (hok : copyLoop sd_hf ks sd = .ok sd') (hk : k ∈ ks) :
    ∃ thf t, sd_hf.lookup k = some thf ∧ sd.lookup k = some t ∧
      ((transposedSuffixes.any (fun w => strEndsWith k w) = true ∧
          thf.shape.reverse = t.shape ∧ sd'.lookup k = some thf.t) ∨
        (transposedSuffixes.any (fun w => strEndsWith k w) = false ∧
          thf.shape = t.shape ∧ sd'.lookup k = some thf)) := by
  induction ks generalizing sd with
  | nil => cases hk
  | cons k0 ks ih =>
    have hnd' : ks.Nodup := (List.nodup_cons.mp hnd).2
    have hk0nm : k0 ∉ ks := (List.nodup_cons.mp hnd).1
    rw [copyLoop] at hok
    split at hok
    next sd1 hck =>
      rcases List.mem_cons.mp hk with heq | hmem
      · subst heq
        unfold copyKey at hck
        split at hck
        next thf t hhf ht =>
          have hfinal : sd'.lookup k = sd1.lookup k :=
            copyLoop_lookup_notmem sd_hf ks sd1 sd' k hok hk0nm
          by_cases htr : transposedSuffixes.any (fun w => strEndsWith k w) = true
          · rw [if_pos htr] at hck
            by_cases hsh : thf.shape.reverse = t.shape
            · rw [if_pos hsh] at hck
              cases hck
              refine ⟨thf, t, hhf, ht, Or.inl ⟨htr, hsh, ?_⟩⟩
              rw [hfinal]
              exact lookup_sdUpdate_self sd k thf.t t ht
            · rw [if_neg hsh] at hck; cases hck
          · rw [if_neg htr] at hck
            by_cases hsh : thf.shape = t.shape
            · rw [if_pos hsh] at hck
              cases hck
              refine ⟨thf, t, hhf, ht,
                Or.inr ⟨Bool.not_eq_true _ ▸ htr, hsh, ?_⟩⟩
              rw [hfinal]
              exact lookup_sdUpdate_self sd k thf t ht
            · rw [if_neg hsh] at hck; cases hck
        next h1 h2 => cases hck
      · have hkne : k ≠ k0 := fun h => hk0nm (h ▸ hmem)
        have hpres : sd1.lookup k = sd.lookup k :=
          copyKey_lookup_ne sd_hf sd sd1 k0 k hck hkne
        rcases ih sd1 hnd' hok hmem with ⟨thf, t, h1, h2, h3⟩
        exact ⟨thf, t, h1, hpres ▸ h2, h3⟩
    next e hck => cases hok

/-!
## Concrete fixtures used by the witness theorems -/

/-- A tiny configuration: block_size 2, vocab_size 2, no layers, one head,
one embedding channel. -/
def cfgW : GPTConfig := ⟨2, 2, 0, 1, 1⟩

/-- A causal self-attention module at `cfgW` with all-zero weights. -/
def attnW : CausalSelfAttention cfgW :=
  ⟨⟨fun _ _ => 0, fun _ => 0⟩, ⟨fun _ _ => 0, fun _ => 0⟩, by decide⟩

/-- A block at `cfgW` with all-zero weights. -/
def blockW : Block cfgW :=
  ⟨⟨fun _ => 1, fun _ => 0⟩, attnW, ⟨fun _ => 1, fun _ => 0⟩,
    ⟨⟨fun _ _ => 0, fun _ => 0⟩, ⟨fun _ _ => 0, fun _ => 0⟩⟩⟩

/-- Block constructor arguments matching `blockW`. -/
def blockInitW : BlockInit cfgW :=
  ⟨⟨fun _ => 1, fun _ => 0⟩, ⟨fun _ _ => 0, fun _ => 0⟩, ⟨fun _ _ => 0, fun _ => 0⟩,
    ⟨fun _ => 1, fun _ => 0⟩, ⟨⟨fun _ _ => 0, fun _ => 0⟩, ⟨fun _ _ => 0, fun _ => 0⟩⟩⟩

/-- A zero-weight GPT at `cfgW` (no blocks, zero tables, zero head). -/
def gptW : GPT cfgW :=
  ⟨⟨fun _ _ => 0⟩, ⟨fun _ _ => 0⟩, [], ⟨fun _ => 1, fun _ => 0⟩, fun _ _ => 0⟩

/-- A zero input of shape (1, 2, n_embd) for `cfgW`. -/
def xW : Fin 1 → Fin 2 → Fin cfgW.n_embd → ℚ := fun _ _ _ => 0

/-!
## The claims -/

/-- C1: in `CausalSelfAttention.forward`, for every input of shape (B, T, C)
with `T ≤ block_size`, the triangular mask buffer sets every attention score
with key index `j` greater than the query index `i` to `-inf` before the
softmax, and after the softmax those positions receive zero attention weight
(the softmax denominator of the row being strictly positive). -/
theorem c1_causal_mask {cfg : GPTConfig} {B T : ℕ} (E : ℚ → ℚ) (sqrtInv : ℕ → ℚ)
    (a : CausalSelfAttention cfg) (hT : T ≤ cfg.block_size)
    (x : Fin B → Fin T → Fin cfg.n_embd → ℚ) (hE : ∀ q, 0 < E q)
    (b : Fin B) (h : Fin cfg.n_head) (i j : Fin T) (hij : (i : ℕ) < (j : ℕ)) :
    CausalSelfAttention.attMasked sqrtInv a hT x b h i j = Score.ninf ∧
    CausalSelfAttention.attWeights E sqrtInv a hT x b h i j = 0 ∧
    0 < ∑ j', expScore E (CausalSelfAttention.attMasked sqrtInv a hT x b h i j') := by
  have hbias : attnBias cfg (Fin.castLE hT i) (Fin.castLE hT j) = 0 := by
    unfold attnBias
    rw [if_neg]
    simp only [Fin.coe_castLE]
    omega
  have hmask : CausalSelfAttention.attMasked sqrtInv a hT x b h i j = Score.ninf := by
    unfold CausalSelfAttention.attMasked
    rw [if_pos hbias]
  refine ⟨hmask, ?_, ?_⟩
  · unfold CausalSelfAttention.attWeights
    rw [hmask]
    simp [expScore]
  · apply Finset.sum_pos'
    · intro j' _
      cases hm : CausalSelfAttention.attMasked sqrtInv a hT x b h i j' with
      | ninf => simp [expScore]
      | val q => exact le_of_lt (by simpa [expScore] using hE q)
    · refine ⟨i, Finset.mem_univ i, ?_⟩
      have hii : CausalSelfAttention.attMasked sqrtInv a hT x b h i i =
          Score.val (CausalSelfAttention.att sqrtInv a x b h i i) := by
        unfold CausalSelfAttention.attMasked
        rw [if_neg]
        unfold attnBias
        rw [if_pos (le_refl _)]
        norm_num
      rw [hii]
      exact hE _

/-- Witness for C1 at the zero-weight module, T = 2, query 0, key 1. -/
theorem c1_causal_mask_witness :
    CausalSelfAttention.attMasked (fun _ => 1) attnW (le_refl 2)
      xW ⟨0, by decide⟩ ⟨0, by decide⟩ ⟨0, by decide⟩
      ⟨1, by decide⟩ = Score.ninf ∧
    CausalSelfAttention.attWeights (fun _ => 1) (fun _ => 1) attnW (le_refl 2)
      xW ⟨0, by decide⟩ ⟨0, by decide⟩ ⟨0, by decide⟩
      ⟨1, by decide⟩ = 0 ∧
    0 < ∑ j', expScore (fun _ => 1)
      (CausalSelfAttention.attMasked (fun _ => 1) attnW (le_refl 2)
        xW ⟨0, by decide⟩ ⟨0, by decide⟩ ⟨0, by decide⟩ j') :=
  c1_causal_mask (fun _ => 1) (fun _ => 1) attnW (le_refl 2)
    xW (fun _ => one_pos) ⟨0, by decide⟩ ⟨0, by decide⟩
    ⟨0, by decide⟩ ⟨1, by decide⟩ (by decide)

/-- The block built by a successful `Block.mk?`. -/
def blockOf (cfg : GPTConfig) (hdiv : cfg.n_embd % cfg.n_head = 0)
    (p : BlockInit cfg) : Block cfg :=
  ⟨p.ln_1, ⟨p.c_attn, p.c_proj, hdiv⟩, p.ln_2, p.mlp⟩

theorem blockMkOk (cfg : GPTConfig) (hdiv : cfg.n_embd % cfg.n_head = 0)
    (p : BlockInit cfg) : Block.mk? cfg p = .ok (blockOf cfg hdiv p) := by
  unfold Block.mk? CausalSelfAttention.mk?
  rw [dif_pos hdiv]
  rfl

theorem blockMkError (cfg : GPTConfig) (hdiv : ¬ cfg.n_embd % cfg.n_head = 0)
    (p : BlockInit cfg) : Block.mk? cfg p = .error "AssertionError" := by
  unfold Block.mk? CausalSelfAttention.mk?
  rw [dif_neg hdiv]
  rfl

theorem mapMBlockMkOk (cfg : GPTConfig) (hdiv : cfg.n_embd % cfg.n_head = 0)
    (ps : List (BlockInit cfg)) :
    ps.mapM (Block.mk? cfg) = .ok (ps.map (blockOf cfg hdiv)) := by
  induction ps with
  | nil => rfl
  | cons p ps ih =>
    rw [List.mapM_cons, blockMkOk cfg hdiv p, ih]
    rfl

/-- C9: constructing `CausalSelfAttention` (and hence `Block` and, as soon as
there is at least one layer, `GPT`) raises `AssertionError` if and only if
`n_embd` is not divisible by `n_head`; when it is divisible, construction
succeeds and the head size `n_embd / n_head` used by the reshape in `forward`
is exact: `headSize * n_head = n_embd`.  (The hypothesis `0 < n_head` matches
Python, where `%` by zero would be a `ZeroDivisionError` instead.) -/
theorem c9_divisibility_assert (cfg : GPTConfig) ( _hh : 0 < cfg.n_head)
    (c_attn : Linear cfg.n_embd (3 * cfg.n_embd))
    (c_proj : Linear cfg.n_embd cfg.n_embd) (p : BlockInit cfg)
    (wte : Embedding cfg.vocab_size cfg.n_embd)
    (wpe : Embedding cfg.block_size cfg.n_embd) (ps : List (BlockInit cfg))
    (hps : ps ≠ []) (ln_f : LayerNorm cfg.n_embd)
    (lm_head : Fin cfg.vocab_size → Fin cfg.n_embd → ℚ) :
    ((∃ a, CausalSelfAttention.mk? cfg c_attn c_proj = .ok a) ↔
      cfg.n_embd % cfg.n_head = 0) ∧
    (¬ cfg.n_embd % cfg.n_head = 0 →
      CausalSelfAttention.mk? cfg c_attn c_proj = .error "AssertionError") ∧
    ((∃ blk, Block.mk? cfg p = .ok blk) ↔ cfg.n_embd % cfg.n_head = 0) ∧
    ((∃ g, GPT.mk? cfg wte wpe ps ln_f lm_head = .ok g) ↔
      cfg.n_embd % cfg.n_head = 0) ∧
    (cfg.n_embd % cfg.n_head = 0 → headSize cfg * cfg.n_head = cfg.n_embd) := by
  have hattnok : ∀ hdiv : cfg.n_embd % cfg.n_head = 0,
      CausalSelfAttention.mk? cfg c_attn c_proj = .ok ⟨c_attn, c_proj, hdiv⟩ := by
    intro hdiv
    unfold CausalSelfAttention.mk?
    rw [dif_pos hdiv]
  have hattnerr : ∀ _ : ¬ cfg.n_embd % cfg.n_head = 0,
      CausalSelfAttention.mk? cfg c_attn c_proj = .error "AssertionError" := by
    intro hdiv
    unfold CausalSelfAttention.mk?
    rw [dif_neg hdiv]
  refine ⟨⟨?_, ?_⟩, hattnerr, ⟨?_, ?_⟩, ⟨?_, ?_⟩, ?_⟩
  · rintro ⟨a, ha⟩
    by_contra hdiv
    rw [hattnerr hdiv] at ha
    cases ha
  · intro hdiv
    exact ⟨_, hattnok hdiv⟩
  · rintro ⟨blk, hblk⟩
    by_contra hdiv
    rw [blockMkError cfg hdiv p] at hblk
    cases hblk
  · intro hdiv
    exact ⟨_, blockMkOk cfg hdiv p⟩
  · rintro ⟨g, hg⟩
    by_contra hdiv
    rcases ps with _ | ⟨p0, ps'⟩
    · exact hps rfl
    · unfold GPT.mk? at hg
      rw [List.mapM_cons, blockMkError cfg hdiv p0] at hg
      cases hg
  · intro hdiv
    refine ⟨⟨wte, wpe, ps.map (blockOf cfg hdiv), ln_f, lm_head⟩, ?_⟩
    unfold GPT.mk?
    rw [mapMBlockMkOk cfg hdiv ps]
    rfl
  · intro hdiv
    exact Nat.div_mul_cancel (Nat.dvd_of_mod_eq_zero hdiv)

/-- Witness for C9 at the one-head, one-channel configuration. -/
theorem c9_divisibility_assert_witness :
    (0 : ℕ) < cfgW.n_head ∧ [blockInitW] ≠ [] ∧
    (((∃ a, CausalSelfAttention.mk? cfgW attnW.c_attn attnW.c_proj = .ok a) ↔
        cfgW.n_embd % cfgW.n_head = 0) ∧
      (¬ cfgW.n_embd % cfgW.n_head = 0 →
        CausalSelfAttention.mk? cfgW attnW.c_attn attnW.c_proj =
          .error "AssertionError") ∧
      ((∃ blk, Block.mk? cfgW blockInitW = .ok blk) ↔
        cfgW.n_embd % cfgW.n_head = 0) ∧
      ((∃ g, GPT.mk? cfgW gptW.wte gptW.wpe [blockInitW] gptW.ln_f gptW.lm_head =
          .ok g) ↔ cfgW.n_embd % cfgW.n_head = 0) ∧
      (cfgW.n_embd % cfgW.n_head = 0 →
        headSize cfgW * cfgW.n_head = cfgW.n_embd)) :=
  ⟨by decide, by simp,
    c9_divisibility_assert cfgW (by decide) attnW.c_attn attnW.c_proj blockInitW
      gptW.wte gptW.wpe [blockInitW] (by simp) gptW.ln_f gptW.lm_head⟩

/-- C4: `Block.forward` returns `x1 + mlp(ln_2(x1))` where
`x1 = x + attn(ln_1(x))`: each of the two sub-layers is applied to a
layer-normalized input and its output is added back to that sub-layer's own
input. -/
theorem c4_block_residual {cfg : GPTConfig} {B T : ℕ} (E : ℚ → ℚ)
    (sqrtInv : ℕ → ℚ) (rsqrt : ℚ → ℚ) (gelu : ℚ → ℚ) (blk : Block cfg)
    (hT : T ≤ cfg.block_size) (x : Fin B → Fin T → Fin cfg.n_embd → ℚ)
    (b : Fin B) (t : Fin T) (c : Fin cfg.n_embd) :
    Block.forward E sqrtInv rsqrt gelu blk hT x b t c =
      (let x1 : Fin B → Fin T → Fin cfg.n_embd → ℚ := fun b t c =>
          x b t c + CausalSelfAttention.forward E sqrtInv blk.attn hT
            (fun b' t' => LayerNorm.forward rsqrt blk.ln_1 (x b' t')) b t c ;
        x1 b t c +
          MLP.forward gelu blk.mlp (LayerNorm.forward rsqrt blk.ln_2 (x1 b t)) c) :=
  rfl

/-- Witness for C4 at the zero-weight block on the zero input. -/
theorem c4_block_residual_witness :
    Block.forward (fun _ => 1) (fun _ => 1) (fun _ => 1) (fun q => q) blockW
      (le_refl 2) xW ⟨0, by decide⟩ ⟨0, by decide⟩ ⟨0, by decide⟩ =
      (let x1 : Fin 1 → Fin 2 → Fin cfgW.n_embd → ℚ := fun b t c =>
          xW b t c + CausalSelfAttention.forward (fun _ => 1) (fun _ => 1)
            blockW.attn (le_refl 2)
            (fun b' t' => LayerNorm.forward (fun _ => 1) blockW.ln_1 (xW b' t'))
            b t c ;
        x1 ⟨0, by decide⟩ ⟨0, by decide⟩ ⟨0, by decide⟩ +
          MLP.forward (fun q => q) blockW.mlp
            (LayerNorm.forward (fun _ => 1) blockW.ln_2
              (x1 ⟨0, by decide⟩ ⟨0, by decide⟩)) ⟨0, by decide⟩) :=
  c4_block_residual (fun _ => 1) (fun _ => 1) (fun _ => 1) (fun q => q) blockW
    (le_refl 2) xW ⟨0, by decide⟩ ⟨0, by decide⟩ ⟨0, by decide⟩

/-- A constant token-id input of shape (1, 2) for `cfgW`. -/
def idxW : Fin 1 → Fin 2 → Fin cfgW.vocab_size := fun _ _ => ⟨0, by decide⟩

/-- A constant token-id input of shape (1, 3), longer than `cfgW.block_size`. -/
def idx3W : Fin 1 → Fin 3 → Fin cfgW.vocab_size := fun _ _ => ⟨0, by decide⟩

/-- C2: given token ids `idx` of shape (B, T) and same-shape targets,
`GPT.forward` returns the pair of the (B, T, vocab_size) logits and the scalar
cross-entropy of the flattened logits against the flattened targets; with no
targets it returns `None` for the loss. -/
theorem c2_forward_returns_logits_and_loss (E lg : ℚ → ℚ) (sqrtInv : ℕ → ℚ)
    (rsqrt gelu : ℚ → ℚ) {cfg : GPTConfig} {B T : ℕ} (g : GPT cfg)
    (idx tg : Fin B → Fin T → Fin cfg.vocab_size) (hT : T ≤ cfg.block_size) :
    GPT.forward E lg sqrtInv rsqrt gelu g idx (some tg) =
      .ok (GPT.logits E sqrtInv rsqrt gelu g hT idx,
        some (crossEntropy E lg (GPT.logits E sqrtInv rsqrt gelu g hT idx) tg)) ∧
    GPT.forward E lg sqrtInv rsqrt gelu g idx none =
      .ok (GPT.logits E sqrtInv rsqrt gelu g hT idx, none) := by
  constructor
  · unfold GPT.forward
    rw [dif_pos hT]
    rfl
  · unfold GPT.forward
    rw [dif_pos hT]
    rfl

/-- Witness for C2 at the zero-weight model. -/
theorem c2_forward_returns_logits_and_loss_witness :
    GPT.forward (fun q => q) (fun q => q) (fun _ => 1) (fun _ => 1) (fun q => q)
        gptW idxW (some idxW) =
      .ok (GPT.logits (fun q => q) (fun _ => 1) (fun _ => 1) (fun q => q) gptW
          (le_refl 2) idxW,
        some (crossEntropy (fun q => q) (fun q => q)
          (GPT.logits (fun q => q) (fun _ => 1) (fun _ => 1) (fun q => q) gptW
            (le_refl 2) idxW) idxW)) ∧
    GPT.forward (fun q => q) (fun q => q) (fun _ => 1) (fun _ => 1) (fun q => q)
        gptW idxW none =
      .ok (GPT.logits (fun q => q) (fun _ => 1) (fun _ => 1) (fun q => q) gptW
          (le_refl 2) idxW, none) :=
  c2_forward_returns_logits_and_loss (fun q => q) (fun q => q) (fun _ => 1)
    (fun _ => 1) (fun q => q) gptW idxW idxW (le_refl 2)

/-- C5: the forward pass is the fixed linear pipeline: token-plus-position
embedding, then the blocks applied in list order (each block receiving the
previous block resulting tensor), then the final LayerNorm, then the
vocabulary projection, then (only when targets are present) the loss. -/
theorem c5_pipeline_order (E lg : ℚ → ℚ) (sqrtInv : ℕ → ℚ) (rsqrt gelu : ℚ → ℚ)
    {cfg : GPTConfig} {B T : ℕ} (g : GPT cfg)
    (idx : Fin B → Fin T → Fin cfg.vocab_size)
    (targets : Option (Fin B → Fin T → Fin cfg.vocab_size))
    (hT : T ≤ cfg.block_size) (blk : Block cfg) (bs : List (Block cfg))
    (y : Fin B → Fin T → Fin cfg.n_embd → ℚ) :
    GPT.forward E lg sqrtInv rsqrt gelu g idx targets =
      .ok (fun b t => linearNoBias g.lm_head
          (LayerNorm.forward rsqrt g.ln_f
            (GPT.applyBlocks E sqrtInv rsqrt gelu hT g.h (GPT.embed g hT idx) b t)),
        targets.map fun tg =>
          crossEntropy E lg (GPT.logits E sqrtInv rsqrt gelu g hT idx) tg) ∧
    GPT.applyBlocks E sqrtInv rsqrt gelu hT (blk :: bs) y =
      GPT.applyBlocks E sqrtInv rsqrt gelu hT bs
        (Block.forward E sqrtInv rsqrt gelu blk hT y) ∧
    GPT.applyBlocks E sqrtInv rsqrt gelu hT ([] : List (Block cfg)) y = y := by
  refine ⟨?_, rfl, rfl⟩
  unfold GPT.forward
  rw [dif_pos hT]
  rfl

/-- Witness for C5 at the zero-weight model with one explicit block. -/
theorem c5_pipeline_order_witness :
    GPT.forward (fun q => q) (fun q => q) (fun _ => 1) (fun _ => 1) (fun q => q)
        gptW idxW none =
      .ok (fun b t => linearNoBias gptW.lm_head
          (LayerNorm.forward (fun _ => 1) gptW.ln_f
            (GPT.applyBlocks (fun q => q) (fun _ => 1) (fun _ => 1) (fun q => q)
              (le_refl 2) gptW.h (GPT.embed gptW (le_refl 2) idxW) b t)),
        Option.map (fun tg =>
          crossEntropy (fun q => q) (fun q => q)
            (GPT.logits (fun q => q) (fun _ => 1) (fun _ => 1) (fun q => q) gptW
              (le_refl 2) idxW) tg) none) ∧
    GPT.applyBlocks (fun q => q) (fun _ => 1) (fun _ => 1) (fun q => q)
        (le_refl 2) (blockW :: []) xW =
      GPT.applyBlocks (fun q => q) (fun _ => 1) (fun _ => 1) (fun q => q)
        (le_refl 2) []
        (Block.forward (fun q => q) (fun _ => 1) (fun _ => 1) (fun q => q) blockW
          (le_refl 2) xW) ∧
    GPT.applyBlocks (fun q => q) (fun _ => 1) (fun _ => 1) (fun q => q)
        (le_refl 2) ([] : List (Block cfgW)) xW = xW :=
  c5_pipeline_order (fun q => q) (fun q => q) (fun _ => 1) (fun _ => 1)
    (fun q => q) gptW idxW none (le_refl 2) blockW [] xW

/-- C6: the embeddings are learned lookup tables: `tok_emb[b, t]` is the `wte`
row of token id `idx[b, t]` (one row per vocabulary id), `pos_emb[t]` is the
`wpe` row of position `t` (one row per position 0..block_size-1, position `t`
reading row `t`), and the embedded input is their sum. -/
theorem c6_embedding_lookup {cfg : GPTConfig} {B T : ℕ} (g : GPT cfg)
    (hT : T ≤ cfg.block_size) (idx : Fin B → Fin T → Fin cfg.vocab_size)
    (b : Fin B) (t : Fin T) (c : Fin cfg.n_embd) :
    GPT.tokEmb g idx b t = g.wte.weight (idx b t) ∧
    GPT.posEmb g hT t = g.wpe.weight (GPT.posIndex cfg hT t) ∧
    ((GPT.posIndex cfg hT t : ℕ) = (t : ℕ) ∧ (t : ℕ) < cfg.block_size) ∧
    GPT.embed g hT idx b t c = GPT.posEmb g hT t c + GPT.tokEmb g idx b t c :=
  ⟨rfl, rfl, ⟨rfl, lt_of_lt_of_le t.isLt hT⟩, rfl⟩

/-- Witness for C6 at the zero-weight model, position 1. -/
theorem c6_embedding_lookup_witness :
    GPT.tokEmb gptW idxW ⟨0, by decide⟩ ⟨1, by decide⟩ =
      gptW.wte.weight (idxW ⟨0, by decide⟩ ⟨1, by decide⟩) ∧
    GPT.posEmb gptW (le_refl 2) ⟨1, by decide⟩ =
      gptW.wpe.weight (GPT.posIndex cfgW (le_refl 2) ⟨1, by decide⟩) ∧
    ((GPT.posIndex cfgW (le_refl 2) ⟨1, by decide⟩ : ℕ) =
        ((⟨1, by decide⟩ : Fin 2) : ℕ) ∧
      ((⟨1, by decide⟩ : Fin 2) : ℕ) < cfgW.block_size) ∧
    GPT.embed gptW (le_refl 2) idxW ⟨0, by decide⟩ ⟨1, by decide⟩ ⟨0, by decide⟩ =
      GPT.posEmb gptW (le_refl 2) ⟨1, by decide⟩ ⟨0, by decide⟩ +
        GPT.tokEmb gptW idxW ⟨0, by decide⟩ ⟨1, by decide⟩ ⟨0, by decide⟩ :=
  c6_embedding_lookup gptW (le_refl 2) idxW ⟨0, by decide⟩ ⟨1, by decide⟩
    ⟨0, by decide⟩

/-- C7: the logits are the raw output of `lm_head` (last dimension
vocab_size): exactly this unnormalized tensor is returned and fed to the
cross-entropy, and its rows need not sum to one, witnessed by the zero-weight
model whose logits rows sum to 0. -/
theorem c7_logits_unnormalized (E lg : ℚ → ℚ) (sqrtInv : ℕ → ℚ)
    (rsqrt gelu : ℚ → ℚ) {cfg : GPTConfig} {B T : ℕ} (g : GPT cfg)
    (idx tg : Fin B → Fin T → Fin cfg.vocab_size) (hT : T ≤ cfg.block_size)
    (b : Fin B) (t : Fin T) (v : Fin cfg.vocab_size) :
    (GPT.logits E sqrtInv rsqrt gelu g hT idx b t v =
      linearNoBias g.lm_head
        (LayerNorm.forward rsqrt g.ln_f
          (GPT.applyBlocks E sqrtInv rsqrt gelu hT g.h (GPT.embed g hT idx) b t)) v ∧
     GPT.forward E lg sqrtInv rsqrt gelu g idx (some tg) =
       .ok (GPT.logits E sqrtInv rsqrt gelu g hT idx,
         some (crossEntropy E lg (GPT.logits E sqrtInv rsqrt gelu g hT idx) tg))) ∧
    (∑ w, GPT.logits (fun q => q) (fun _ => 1) (fun _ => 1) (fun q => q) gptW
        (le_refl 2) idxW ⟨0, by decide⟩ ⟨0, by decide⟩ w) ≠ 1 := by
  refine ⟨⟨rfl, ?_⟩, ?_⟩
  · unfold GPT.forward
    rw [dif_pos hT]
    rfl
  · simp [GPT.logits, linearNoBias, gptW]

/-- Witness for C7 at the zero-weight model. -/
theorem c7_logits_unnormalized_witness :
    (GPT.logits (fun q => q) (fun _ => 1) (fun _ => 1) (fun q => q) gptW
        (le_refl 2) idxW ⟨0, by decide⟩ ⟨0, by decide⟩ ⟨0, by decide⟩ =
      linearNoBias gptW.lm_head
        (LayerNorm.forward (fun _ => 1) gptW.ln_f
          (GPT.applyBlocks (fun q => q) (fun _ => 1) (fun _ => 1) (fun q => q)
            (le_refl 2) gptW.h (GPT.embed gptW (le_refl 2) idxW)
            ⟨0, by decide⟩ ⟨0, by decide⟩)) ⟨0, by decide⟩ ∧
     GPT.forward (fun q => q) (fun q => q) (fun _ => 1) (fun _ => 1) (fun q => q)
        gptW idxW (some idxW) =
       .ok (GPT.logits (fun q => q) (fun _ => 1) (fun _ => 1) (fun q => q) gptW
           (le_refl 2) idxW,
         some (crossEntropy (fun q => q) (fun q => q)
           (GPT.logits (fun q => q) (fun _ => 1) (fun _ => 1) (fun q => q) gptW
             (le_refl 2) idxW) idxW))) ∧
    (∑ w, GPT.logits (fun q => q) (fun _ => 1) (fun _ => 1) (fun q => q) gptW
        (le_refl 2) idxW ⟨0, by decide⟩ ⟨0, by decide⟩ w) ≠ 1 :=
  c7_logits_unnormalized (fun q => q) (fun q => q) (fun _ => 1) (fun _ => 1)
    (fun q => q) gptW idxW idxW (le_refl 2) ⟨0, by decide⟩ ⟨0, by decide⟩
    ⟨0, by decide⟩

/-- C8: `GPT.forward` hits the `assert T <= block_size` error branch exactly
when the sequence length exceeds block_size; under `T ≤ block_size` it
succeeds and every position index fed to the `wpe` lookup equals its sequence
position and is strictly below block_size. -/
theorem c8_sequence_length_assert (E lg : ℚ → ℚ) (sqrtInv : ℕ → ℚ)
    (rsqrt gelu : ℚ → ℚ) {cfg : GPTConfig} {B T : ℕ} (g : GPT cfg)
    (idx : Fin B → Fin T → Fin cfg.vocab_size)
    (targets : Option (Fin B → Fin T → Fin cfg.vocab_size)) :
    (cfg.block_size < T →
      GPT.forward E lg sqrtInv rsqrt gelu g idx targets =
        .error ("AssertionError: Cannot forward sequence of lenth " ++
          toString T ++ ", block size")) ∧
    (∀ hT : T ≤ cfg.block_size,
      GPT.forward E lg sqrtInv rsqrt gelu g idx targets =
        .ok (GPT.logits E sqrtInv rsqrt gelu g hT idx,
          targets.map fun tg =>
            crossEntropy E lg (GPT.logits E sqrtInv rsqrt gelu g hT idx) tg) ∧
      ∀ t : Fin T, (GPT.posIndex cfg hT t : ℕ) = (t : ℕ) ∧
        (GPT.posIndex cfg hT t : ℕ) < cfg.block_size) := by
  constructor
  · intro hlt
    unfold GPT.forward
    rw [dif_neg (by omega)]
  · intro hT
    refine ⟨?_, fun t => ⟨rfl, (GPT.posIndex cfg hT t).isLt⟩⟩
    unfold GPT.forward
    rw [dif_pos hT]

/-- Witness for C8: the error branch at T = 3 > 2 and the success branch at
T = 2. -/
theorem c8_sequence_length_assert_witness :
    GPT.forward (fun q => q) (fun q => q) (fun _ => 1) (fun _ => 1) (fun q => q)
        gptW idx3W none =
      .error ("AssertionError: Cannot forward sequence of lenth " ++
        toString (3 : ℕ) ++ ", block size") ∧
    (GPT.forward (fun q => q) (fun q => q) (fun _ => 1) (fun _ => 1) (fun q => q)
        gptW idxW none =
      .ok (GPT.logits (fun q => q) (fun _ => 1) (fun _ => 1) (fun q => q) gptW
          (le_refl 2) idxW,
        Option.map (fun tg =>
          crossEntropy (fun q => q) (fun q => q)
            (GPT.logits (fun q => q) (fun _ => 1) (fun _ => 1) (fun q => q) gptW
              (le_refl 2) idxW) tg) none) ∧
      ∀ t : Fin 2, (GPT.posIndex cfgW (le_refl 2) t : ℕ) = (t : ℕ) ∧
        (GPT.posIndex cfgW (le_refl 2) t : ℕ) < cfgW.block_size) :=
  ⟨(c8_sequence_length_assert (fun q => q) (fun q => q) (fun _ => 1) (fun _ => 1)
      (fun q => q) gptW idx3W none).1 (by decide),
    (c8_sequence_length_assert (fun q => q) (fun q => q) (fun _ => 1) (fun _ => 1)
      (fun q => q) gptW idxW none).2 (le_refl 2)⟩

/-- A constant tensor of the given shape, used in the state-dict fixtures. -/
def tW (sh : List ℕ) : PTensor := ⟨sh, fun _ => 0⟩

/-- A fresh-model state dict fixture: one mask buffer, one verbatim-copied
weight, one transpose-copied weight. -/
def sdW : StateDict :=
  [("transformer.h.0.attn.bias", tW [2, 2]),
   ("transformer.wte.weight", tW [2, 3]),
   ("transformer.h.0.mlp.c_fc.weight", tW [4, 1])]

/-- A checkpoint state dict fixture matching `sdW`, with both buffer kinds. -/
def sdHfW : StateDict :=
  [("transformer.wte.weight", tW [2, 3]),
   ("transformer.h.0.mlp.c_fc.weight", tW [1, 4]),
   ("transformer.h.0.attn.bias", tW [2, 2]),
   ("transformer.h.0.attn.masked_bias", tW [2, 2])]

/-- The result of importing `sdHfW` into `sdW`. -/
def sdW' : StateDict :=
  [("transformer.h.0.attn.bias", tW [2, 2]),
   ("transformer.wte.weight", tW [2, 3]),
   ("transformer.h.0.mlp.c_fc.weight", (tW [1, 4]).t)]

/-- C3: a successful `from_pretrained` import filters the mask buffers out of
both key lists, requires the two filtered lists to have equal length, and
copies every remaining checkpoint entry into the model by key: keys ending in
one of the four `transposed` suffixes are copied transposed under the
reversed-shape check, every other key verbatim under the equal-shape check. -/
theorem c3_from_pretrained_copy (sd sd_hf sd2 : StateDict)
    (hnd : (sd_hf.map Prod.fst).Nodup)
    (hok : fromPretrainedCopy sd sd_hf = .ok sd2) :
    (filteredKeysHf sd_hf).length = (filteredKeys sd).length ∧
    (∀ kk : String,
      (strEndsWith kk ".attn.bias" = true ∨ strEndsWith kk ".attn.masked_bias" = true) →
      kk ∉ filteredKeysHf sd_hf) ∧
    (∀ kk : String, kk ∈ sd_hf.map Prod.fst → strEndsWith kk ".attn.bias" = false →
      strEndsWith kk ".attn.masked_bias" = false → kk ∈ filteredKeysHf sd_hf) ∧
    (∀ kk : String, kk ∈ filteredKeysHf sd_hf → ∃ thf t,
      sd_hf.lookup kk = some thf ∧ sd.lookup kk = some t ∧
      ((transposedSuffixes.any (fun w => strEndsWith kk w) = true ∧
          thf.shape.reverse = t.shape ∧ sd2.lookup kk = some thf.t) ∨
        (transposedSuffixes.any (fun w => strEndsWith kk w) = false ∧
          thf.shape = t.shape ∧ sd2.lookup kk = some thf))) := by
  have hlen : (filteredKeysHf sd_hf).length = (filteredKeys sd).length := by
    by_contra hne
    unfold fromPretrainedCopy at hok
    rw [if_neg hne] at hok
    cases hok
  have hloop : copyLoop sd_hf (filteredKeysHf sd_hf) sd = .ok sd2 := by
    unfold fromPretrainedCopy at hok
    rwa [if_pos hlen] at hok
  refine ⟨hlen, ?_, ?_, ?_⟩
  · intro kk hsuf hmem
    rcases mem_filteredKeysHf sd_hf kk hmem with ⟨h1, h2⟩
    rcases hsuf with h | h
    · rw [h1] at h; cases h
    · rw [h2] at h; cases h
  · intro kk hmem h1 h2
    unfold filteredKeysHf
    rw [List.mem_filter, List.mem_filter]
    exact ⟨⟨hmem, by rw [h2]; rfl⟩, by rw [h1]; rfl⟩
  · intro kk hmem
    have hndf : (filteredKeysHf sd_hf).Nodup :=
      List.Nodup.filter _ (List.Nodup.filter _ hnd)
    exact copyLoop_lookup_mem sd_hf (filteredKeysHf sd_hf) sd sd2 kk hndf hloop hmem

/-- Witness for C3 on the concrete fixtures, at the transposed key. -/
theorem c3_from_pretrained_copy_witness :
    (filteredKeysHf sdHfW).length = (filteredKeys sdW).length ∧
    ∃ thf t, sdHfW.lookup "transformer.h.0.mlp.c_fc.weight" = some thf ∧
      sdW.lookup "transformer.h.0.mlp.c_fc.weight" = some t ∧
      ((transposedSuffixes.any
          (fun w => strEndsWith "transformer.h.0.mlp.c_fc.weight" w) = true ∧
          thf.shape.reverse = t.shape ∧
          sdW'.lookup "transformer.h.0.mlp.c_fc.weight" = some thf.t) ∨
        (transposedSuffixes.any
          (fun w => strEndsWith "transformer.h.0.mlp.c_fc.weight" w) = false ∧
          thf.shape = t.shape ∧
          sdW'.lookup "transformer.h.0.mlp.c_fc.weight" = some thf)) :=
  ⟨(c3_from_pretrained_copy sdW sdHfW sdW' (by decide) rfl).1,
    (c3_from_pretrained_copy sdW sdHfW sdW' (by decide) rfl).2.2.2
      "transformer.h.0.mlp.c_fc.weight" (by decide)⟩

/-- C10: a successful `from_pretrained` import never writes a state-dict entry
whose key ends in `.attn.bias` or `.attn.masked_bias`: every mask buffer of
the fresh model is unchanged, and any key whose entry changed belongs to the
filtered (non-buffer) checkpoint key list. -/
theorem c10_mask_buffers_unchanged (sd sd_hf sd2 : StateDict)
    (hok : fromPretrainedCopy sd sd_hf = .ok sd2) :
    (∀ kk : String,
      (strEndsWith kk ".attn.bias" = true ∨ strEndsWith kk ".attn.masked_bias" = true) →
      sd2.lookup kk = sd.lookup kk) ∧
    (∀ kk : String, sd2.lookup kk ≠ sd.lookup kk → kk ∈ filteredKeysHf sd_hf) := by
  have hloop : copyLoop sd_hf (filteredKeysHf sd_hf) sd = .ok sd2 := by
    unfold fromPretrainedCopy at hok
    by_cases hlen : (filteredKeysHf sd_hf).length = (filteredKeys sd).length
    · rwa [if_pos hlen] at hok
    · rw [if_neg hlen] at hok
      cases hok
  constructor
  · intro kk hsuf
    refine copyLoop_lookup_notmem sd_hf _ sd sd2 kk hloop ?_
    intro hmem
    rcases mem_filteredKeysHf sd_hf kk hmem with ⟨h1, h2⟩
    rcases hsuf with h | h
    · rw [h1] at h; cases h
    · rw [h2] at h; cases h
  · intro kk hne
    by_contra hmem
    exact hne (copyLoop_lookup_notmem sd_hf _ sd sd2 kk hloop hmem)

/-- Witness for C10 on the concrete fixtures, at the mask-buffer key. -/
theorem c10_mask_buffers_unchanged_witness :
    sdW'.lookup "transformer.h.0.attn.bias" =
      sdW.lookup "transformer.h.0.attn.bias" :=
  (c10_mask_buffers_unchanged sdW sdHfW sdW' rfl).1 "transformer.h.0.attn.bias"
    (Or.inl (by decide))

end TrainGPT2
